import Mathlib

/-!
Verification of the system-builder selection/state-reconciliation engine.

This development is a shallow embedding of the `SystemBuilder` web component
(`assets/system-builder.js`, current multi-variant revision).  The DOM and
network glue is stripped away; what is embedded is the core the spec calls
out: the three-level choice path, the cascade-invalidation rule, the toggle
engine over the selected-products object, the summary aggregator, and the
add-to-cart submission adapter.

Modelling conventions:
* The JS object `this.selectedProducts` preserves string-key insertion
  order, so it is embedded as an association list.  `delete obj[k]` removes
  the entry keeping the order of the rest, assignment to an absent key
  appends, and assignment to a present key replaces the value in place.
* `parseInt(s, 10)` is embedded as `jsParseInt`, returning `none` for `NaN`
  (no leading digits).  `===` on ids is `idEq`, under which `NaN` equals
  nothing, including itself.
* Slot keys are `"shaft"` or `"<type>-<index>"`; the component renders only
  `ball` and `pineapple` accessory panels, so accessory types are that
  two-element enumeration and the key grammar is the inductive `SlotKey`.
* Prices are catalog integers (minor currency units); `p.price || 0` and
  `p.quantity || 1` are embedded with `|| 0` the identity on integers and
  `jsOr1` for `|| 1`.
-/

/-- One sport entry of the catalog feed. -/
structure SportEntry where
  handle : String
  label : String
deriving DecidableEq

/-- One shaft-type entry; `sportHandles` is the list of sports it belongs to. -/
structure ShaftTypeEntry where
  handle : String
  name : String
  sportHandles : List String
deriving DecidableEq

/-- One purchasable shaft variant of a size, as carried by the feed. -/
structure ShaftVariantEntry where
  id : Int
  title : String
  productTitle : Option String
  price : Int
  image : Option String
deriving DecidableEq

/-- One shaft-size entry; `shafts` is its ordered variant list. -/
structure ShaftSizeEntry where
  handle : String
  name : String
  shaftTypeHandle : String
  shafts : List ShaftVariantEntry
deriving DecidableEq

/-- The loaded metaobject data (`this.data`). -/
structure CatalogData where
  sports : List SportEntry
  shaftTypes : List ShaftTypeEntry
  shaftSizes : List ShaftSizeEntry
deriving DecidableEq

/-- Accessory panel types rendered by the component. -/
inductive AccType
  | ball
  | pineapple
deriving DecidableEq

/-- Slot keys of the selected-products object: `"shaft"` or `"<type>-<index>"`. -/
inductive SlotKey
  | shaft
  | acc (t : AccType) (idx : Nat)
deriving DecidableEq

/-- A selected product (one value of `this.selectedProducts`).  `id = none`
models a `NaN` variant id produced by `parseInt` on a non-numeric string. -/
structure SelectedProduct where
  id : Option Int
  title : String
  price : Int
  image : String
  slotKey : SlotKey
  quantity : Int
deriving DecidableEq

/-- The selected-products object, in insertion order. -/
abbrev SelectionSet := List (SlotKey × SelectedProduct)

/-- Property read `obj[k]` on the selection object. -/
def jsGet : SelectionSet → SlotKey → Option SelectedProduct
  | [], _ => none
  | (k, v) :: rest, key => if k = key then some v else jsGet rest key

/-- `delete obj[k]`: drops the entry, keeping the order of the others. -/
def jsDelete : SelectionSet → SlotKey → SelectionSet
  | [], _ => []
  | (k, v) :: rest, key => if k = key then jsDelete rest key else (k, v) :: jsDelete rest key

/-- In-place replacement of the value stored under an existing key. -/
def replaceKey : SelectionSet → SlotKey → SelectedProduct → SelectionSet
  | [], _, _ => []
  | (k, w) :: rest, key, v =>
    if k = key then (key, v) :: replaceKey rest key v else (k, w) :: replaceKey rest key v

/-- Property write `obj[k] = v`: replaces in place when the key is present,
appends otherwise. -/
def jsSet (m : SelectionSet) (key : SlotKey) (v : SelectedProduct) : SelectionSet :=
  match jsGet m key with
  | some _ => replaceKey m key v
  | none => m ++ [(key, v)]

/-- `q || 1` on an integer quantity (only `0` is falsy among integers). -/
def jsOr1 (q : Int) : Int :=
  if q = 0 then 1 else q

/-- Digit run to a natural number, most significant first. -/
def digitsToNat (ds : List Char) : Nat :=
  ds.foldl (fun a c => a * 10 + (c.toNat - '0'.toNat)) 0

/-- `parseInt(s, 10)`: optional sign, then the maximal run of leading digits;
`none` models `NaN` (no digits found). -/
def jsParseInt (s : String) : Option Int :=
  match s.data with
  | '-' :: rest =>
    let ds := rest.takeWhile Char.isDigit
    if ds.isEmpty then none else some (-(digitsToNat ds : Int))
  | '+' :: rest =>
    let ds := rest.takeWhile Char.isDigit
    if ds.isEmpty then none else some (digitsToNat ds : Int)
  | cs =>
    let ds := cs.takeWhile Char.isDigit
    if ds.isEmpty then none else some (digitsToNat ds : Int)

/-- Strict equality `===` between stored and clicked variant ids; `NaN`
(`none`) compares unequal to everything, itself included. -/
def idEq : Option Int → Option Int → Bool
  | some a, some b => decide (a = b)
  | _, _ => false

/-- JS truthiness of a stored variant id: `NaN` and `0` are falsy. -/
def idTruthy : Option Int → Bool
  | some n => decide (n ≠ 0)
  | none => false

/-- The chip-selection state (`this.state`). -/
structure BuilderState where
  sport : Option String
  shaftType : Option String
  shaftSize : Option String
deriving DecidableEq

/-- The configurator instance: choice path plus selected products. -/
structure SystemBuilder where
  state : BuilderState
  selectedProducts : SelectionSet
deriving DecidableEq

/-- The three chip fields (`data-field` values). -/
inductive ChipField
  | sport
  | shaftType
  | shaftSize
deriving DecidableEq

/-- One chip-click event: which field, and the chip's `data-value`. -/
structure ChipEvent where
  field : ChipField
  value : String
deriving DecidableEq

/-- Effect of `hideShaftProduct` on the selection object: the shaft entry is
deleted (the DOM emptying is rendering glue). -/
def hideShaftProduct (m : SelectionSet) : SelectionSet :=
  jsDelete m .shaft

/-- Whether a key is an accessory key (starts with `ball-` or `pineapple-`). -/
def isAccKey : SlotKey → Bool
  | .shaft => false
  | .acc _ _ => true

/-- Effect of `hideAccessoryPanels` on the selection object: every entry whose
key starts with `ball-` or `pineapple-` is deleted. -/
def hideAccessoryPanels (m : SelectionSet) : SelectionSet :=
  m.filter (fun e => !(isAccKey e.1))

/-- Effect of `renderShaftProduct` on the selection object: whatever branch is
taken, the stale shaft entry is deleted (`hideShaftProduct` when the size is
unknown or offers no variants, the explicit `delete` otherwise). -/
def renderShaftProduct (data : CatalogData) (st : BuilderState) (m : SelectionSet) :
    SelectionSet :=
  match st.shaftSize with
  | none => hideShaftProduct m
  | some v =>
    match data.shaftSizes.find? (fun ss => decide (ss.handle = v)) with
    | none => hideShaftProduct m
    | some sizeData =>
      if sizeData.shafts.isEmpty then hideShaftProduct m else jsDelete m .shaft

/-- `handleChipClick`: the switch over `data-field`, with the DOM chip
re-rendering stripped to its effect on the state and the selection object. -/
def handleChipClick (data : CatalogData) (b : SystemBuilder) (field : ChipField)
    (value : String) : SystemBuilder :=
  match field with
  | .sport =>
    { state := { sport := some value, shaftType := none, shaftSize := none },
      selectedProducts :=
        hideAccessoryPanels (hideShaftProduct (jsDelete b.selectedProducts .shaft)) }
  | .shaftType =>
    { state := { b.state with shaftType := some value, shaftSize := none },
      selectedProducts :=
        hideAccessoryPanels (hideShaftProduct (jsDelete b.selectedProducts .shaft)) }
  | .shaftSize =>
    let st := { b.state with shaftSize := some value }
    { state := st, selectedProducts := renderShaftProduct data st b.selectedProducts }

/-- Folding a list of chip events through `handleChipClick`. -/
def applyEvents (data : CatalogData) (b : SystemBuilder) : List ChipEvent → SystemBuilder
  | [] => b
  | e :: es => applyEvents data (handleChipClick data b e.field e.value) es

/-- The shaft-type chips currently rendered: filtered by membership of the
current sport in each type's `sportHandles` (empty before a sport is chosen). -/
def offeredShaftTypes (data : CatalogData) (b : SystemBuilder) : List ShaftTypeEntry :=
  match b.state.sport with
  | none => []
  | some s => data.shaftTypes.filter (fun st => st.sportHandles.any (fun h => decide (h = s)))

/-- The shaft-size chips currently rendered: filtered by exact match on the
current shaft type (empty before a type is chosen). -/
def offeredShaftSizes (data : CatalogData) (b : SystemBuilder) : List ShaftSizeEntry :=
  match b.state.shaftType with
  | none => []
  | some t => data.shaftSizes.filter (fun ss => decide (ss.shaftTypeHandle = t))

/-- A chip event whose value is drawn from the currently offered candidates. -/
def legalEventB (data : CatalogData) (b : SystemBuilder) (e : ChipEvent) : Bool :=
  match e.field with
  | .sport => data.sports.any (fun sp => decide (sp.handle = e.value))
  | .shaftType => (offeredShaftTypes data b).any (fun st => decide (st.handle = e.value))
  | .shaftSize => (offeredShaftSizes data b).any (fun ss => decide (ss.handle = e.value))

/-- Every event of the sequence is offered at the state it is applied in. -/
def allLegalB (data : CatalogData) (b : SystemBuilder) : List ChipEvent → Bool
  | [] => true
  | e :: es => legalEventB data b e && allLegalB data (handleChipClick data b e.field e.value) es

/-- The SelectionPath invariants of the spec: a chosen shaft type is a catalog
type listing the chosen sport, a chosen size is a catalog size of the chosen
type. -/
@[reducible] def pathInvariant (data : CatalogData) (st : BuilderState) : Prop :=
  (∀ t, st.shaftType = some t →
    ∃ s, st.sport = some s ∧ ∃ ste ∈ data.shaftTypes, ste.handle = t ∧ s ∈ ste.sportHandles) ∧
  (∀ z, st.shaftSize = some z →
    ∃ t, st.shaftType = some t ∧
      ∃ sse ∈ data.shaftSizes, sse.handle = z ∧ sse.shaftTypeHandle = t)

/-- The `data-product-type` of a clicked card; the component renders shaft,
ball and pineapple cards. -/
inductive ProdType
  | shaft
  | ball
  | pineapple
deriving DecidableEq

/-- The data a clicked product card carries: its type, its panel index, the
hidden `data-variant-id` value (empty when the input is missing or blank), and
the scraped title/price/image. -/
structure CardData where
  productType : ProdType
  productIndex : Nat
  variantIdStr : String
  title : String
  price : Int
  image : String
deriving DecidableEq

/-- The slot key a card toggles: `"shaft"`, or `"<type>-<index>"`. -/
def slotKeyOf (t : ProdType) (i : Nat) : SlotKey :=
  match t with
  | .shaft => .shaft
  | .ball => .acc .ball i
  | .pineapple => .acc .pineapple i

/-- The entry a toggle-on stores: parsed id, scraped fields, quantity 1. -/
def productOf (c : CardData) : SelectedProduct :=
  { id := jsParseInt c.variantIdStr
    title := c.title
    price := c.price
    image := c.image
    slotKey := slotKeyOf c.productType c.productIndex
    quantity := 1 }

/-- `handleProductCardClick`: no-op on a blank variant id; the shaft slot is
exclusive (toggle off when the clicked id `===` the occupant's id, replace
otherwise); accessory slots toggle independently by their own key. -/
def handleProductCardClick (m : SelectionSet) (c : CardData) : SelectionSet :=
  if c.variantIdStr = "" then m
  else
    match c.productType with
    | .shaft =>
      let clickedId := jsParseInt c.variantIdStr
      let alreadySelected :=
        match jsGet m .shaft with
        | some p => idEq p.id clickedId
        | none => false
      if alreadySelected then jsDelete m .shaft else jsSet m .shaft (productOf c)
    | .ball =>
      let key := slotKeyOf .ball c.productIndex
      match jsGet m key with
      | some _ => jsDelete m key
      | none => jsSet m key (productOf c)
    | .pineapple =>
      let key := slotKeyOf .pineapple c.productIndex
      match jsGet m key with
      | some _ => jsDelete m key
      | none => jsSet m key (productOf c)

/-- `handleQtyChange`: silently returns when the slot is unoccupied or the new
quantity would drop below 1; otherwise stores the new quantity in place. -/
def handleQtyChange (m : SelectionSet) (slotKey : SlotKey) (delta : Int) : SelectionSet :=
  match jsGet m slotKey with
  | none => m
  | some product =>
    let newQty := jsOr1 product.quantity + delta
    if newQty < 1 then m else jsSet m slotKey { product with quantity := newQty }

/-- One rendered summary line. -/
structure SummaryLine where
  slotKey : SlotKey
  title : String
  unitPrice : Int
  quantity : Int
  lineTotal : Int
deriving DecidableEq

/-- The derived summary: lines in entry order, grand total, item count. -/
structure Summary where
  lines : List SummaryLine
  grandTotal : Int
  itemCount : Nat
deriving DecidableEq

/-- The line `updateSummary` renders for one entry: quantity `q || 1`, line
total `(price || 0) * q` (`|| 0` is the identity on catalog integers). -/
def lineOf (p : SelectedProduct) : SummaryLine :=
  { slotKey := p.slotKey
    title := p.title
    unitPrice := p.price
    quantity := jsOr1 p.quantity
    lineTotal := p.price * jsOr1 p.quantity }

/-- The pure core of `updateSummary`: lines over `Object.values` in insertion
order, total by the same fold the source uses, item count `entries.length`. -/
def updateSummary (m : SelectionSet) : Summary :=
  let entries := m.map (fun e => e.2)
  { lines := entries.map lineOf
    grandTotal := entries.foldl (fun s p => s + p.price * jsOr1 p.quantity) 0
    itemCount := entries.length }

/-- One `{id, quantity}` pair of the add-to-cart batch. -/
structure CartItem where
  id : Int
  quantity : Int
deriving DecidableEq

/-- The batch `handleAddToCart` builds: entries with a truthy id, in entry
order, each with `quantity || 1`. -/
def itemsOf (m : SelectionSet) : List CartItem :=
  ((m.map (fun e => e.2)).filter (fun p => idTruthy p.id)).map
    (fun p => { id := p.id.getD 0, quantity := jsOr1 p.quantity })

/-- Outcome of the external add-items operation: the fetch rejects, or it
resolves with `response.ok` true or false. -/
inductive AddItemsOutcome
  | reject
  | respond (ok : Bool)
deriving DecidableEq

/-- The submission result the adapter surfaces. -/
inductive SubmitResult
  | nothingSelected
  | added (itemCount : Nat)
  | failed
deriving DecidableEq

/-- What a submission produced: the surfaced result, the builder afterwards,
and whether the cart service was contacted at all. -/
structure SubmitReport where
  result : SubmitResult
  builder : SystemBuilder
  contactedCart : Bool
deriving DecidableEq

/-- `resetBuilder`: path to all-none, selection object emptied. -/
def resetBuilder (_b : SystemBuilder) : SystemBuilder :=
  { state := { sport := none, shaftType := none, shaftSize := none }, selectedProducts := [] }

/-- `handleAddToCart`: empty batch takes the select-products-first path with
no network call; a rejected fetch or a non-ok response lands in the catch
block leaving the builder untouched; success reads the cart count and resets
the builder. -/
def handleAddToCart (b : SystemBuilder) (o : AddItemsOutcome) (cartCount : Nat) :
    SubmitReport :=
  let items := itemsOf b.selectedProducts
  if items.isEmpty then
    { result := .nothingSelected, builder := b, contactedCart := false }
  else
    match o with
    | .reject => { result := .failed, builder := b, contactedCart := true }
    | .respond false => { result := .failed, builder := b, contactedCart := true }
    | .respond true =>
      { result := .added cartCount, builder := resetBuilder b, contactedCart := true }

/-- Deleting a key makes it unreadable. -/
theorem jsGet_delete_self (m : SelectionSet) (k : SlotKey) : jsGet (jsDelete m k) k = none := by
  induction m with
  | nil => rfl
  | cons e rest ih =>
    obtain ⟨k0, v0⟩ := e
    by_cases h : k0 = k
    · simp [jsDelete, h, ih]
    · simp [jsDelete, jsGet, h, ih]

/-- Deleting one key leaves every other key's binding unchanged. -/
theorem jsGet_delete_ne (m : SelectionSet) (k k' : SlotKey) (h : k' ≠ k) :
    jsGet (jsDelete m k) k' = jsGet m k' := by
  induction m with
  | nil => rfl
  | cons e rest ih =>
    obtain ⟨k0, v0⟩ := e
    by_cases hk : k0 = k
    · have hne : ¬k = k' := Ne.symm h
      simp [jsDelete, jsGet, hk, hne, ih]
    · simp only [jsDelete, if_neg hk, jsGet]
      by_cases hk' : k0 = k'
      · simp [hk']
      · simp [hk', ih]

/-- Reading past an absent key continues in the appended tail. -/
theorem jsGet_append_of_absent (m l : SelectionSet) (k : SlotKey) (h : jsGet m k = none) :
    jsGet (m ++ l) k = jsGet l k := by
  induction m with
  | nil => rfl
  | cons e rest ih =>
    obtain ⟨k0, v0⟩ := e
    by_cases hk : k0 = k
    · simp [jsGet, hk] at h
    · simp [jsGet, hk] at h ⊢
      exact ih h

/-- Appending entries under other keys does not change a key's binding. -/
theorem jsGet_append_single_ne (m : SelectionSet) (k k' : SlotKey) (v : SelectedProduct)
    (h : k' ≠ k) : jsGet (m ++ [(k, v)]) k' = jsGet m k' := by
  induction m with
  | nil => simp [jsGet, Ne.symm h]
  | cons e rest ih =>
    obtain ⟨k0, v0⟩ := e
    by_cases hk : k0 = k'
    · simp [jsGet, hk]
    · simp [jsGet, hk, ih]

/-- In-place replacement stores the new value under the key it replaces. -/
theorem jsGet_replaceKey_self (m : SelectionSet) (k : SlotKey) (v w : SelectedProduct)
    (h : jsGet m k = some w) : jsGet (replaceKey m k v) k = some v := by
  induction m with
  | nil => simp [jsGet] at h
  | cons e rest ih =>
    obtain ⟨k0, v0⟩ := e
    by_cases hk : k0 = k
    · simp [replaceKey, jsGet, hk]
    · simp [jsGet, hk] at h
      simp [replaceKey, jsGet, hk, ih h]

/-- In-place replacement leaves other keys' bindings unchanged. -/
theorem jsGet_replaceKey_ne (m : SelectionSet) (k k' : SlotKey) (v : SelectedProduct)
    (h : k' ≠ k) : jsGet (replaceKey m k v) k' = jsGet m k' := by
  induction m with
  | nil => rfl
  | cons e rest ih =>
    obtain ⟨k0, v0⟩ := e
    by_cases hk : k0 = k
    · have hne : ¬k0 = k' := by
        rw [hk]
        exact Ne.symm h
      simp [replaceKey, jsGet, hk, hne, Ne.symm h, ih]
    · simp [replaceKey, jsGet, hk, ih]

/-- Writing a key makes the written value readable. -/
theorem jsGet_set_self (m : SelectionSet) (k : SlotKey) (v : SelectedProduct) :
    jsGet (jsSet m k v) k = some v := by
  unfold jsSet
  cases h : jsGet m k with
  | none =>
    rw [jsGet_append_of_absent m _ k h]
    simp [jsGet]
  | some w => exact jsGet_replaceKey_self m k v w h

/-- Writing one key leaves every other key's binding unchanged. -/
theorem jsGet_set_ne (m : SelectionSet) (k k' : SlotKey) (v : SelectedProduct) (h : k' ≠ k) :
    jsGet (jsSet m k v) k' = jsGet m k' := by
  unfold jsSet
  cases hm : jsGet m k with
  | none => exact jsGet_append_single_ne m k k' v h
  | some w => exact jsGet_replaceKey_ne m k k' v h

/-- Writing an absent key appends the new entry. -/
theorem jsSet_of_absent (m : SelectionSet) (k : SlotKey) (v : SelectedProduct)
    (h : jsGet m k = none) : jsSet m k v = m ++ [(k, v)] := by
  unfold jsSet
  rw [h]

/-- After replacing in place at a present key, the new pair is an entry. -/
theorem mem_replaceKey (m : SelectionSet) (k : SlotKey) (v w : SelectedProduct)
    (h : jsGet m k = some w) : (k, v) ∈ replaceKey m k v := by
  induction m with
  | nil => simp [jsGet] at h
  | cons e rest ih =>
    obtain ⟨k0, v0⟩ := e
    by_cases hk : k0 = k
    · simp [replaceKey, hk]
    · simp [jsGet, hk] at h
      simp [replaceKey, hk]
      exact Or.inr (ih h)

/-- Hiding the accessory panels clears every accessory key. -/
theorem jsGet_hideAcc_acc (m : SelectionSet) (t : AccType) (i : Nat) :
    jsGet (hideAccessoryPanels m) (.acc t i) = none := by
  induction m with
  | nil => rfl
  | cons e rest ih =>
    obtain ⟨k0, v0⟩ := e
    cases k0 with
    | shaft => simpa [hideAccessoryPanels, isAccKey, jsGet] using ih
    | acc t0 i0 => simpa [hideAccessoryPanels, isAccKey, jsGet] using ih

/-- Hiding the accessory panels leaves the shaft binding unchanged. -/
theorem jsGet_hideAcc_shaft (m : SelectionSet) :
    jsGet (hideAccessoryPanels m) .shaft = jsGet m .shaft := by
  induction m with
  | nil => rfl
  | cons e rest ih =>
    obtain ⟨k0, v0⟩ := e
    cases k0 with
    | shaft => simp [hideAccessoryPanels, isAccKey, jsGet]
    | acc t0 i0 => simpa [hideAccessoryPanels, isAccKey, jsGet] using ih

/-- The summing fold of `updateSummary`, started anywhere. -/
theorem foldl_price_qty (l : List SelectedProduct) (a : Int) :
    l.foldl (fun s p => s + p.price * jsOr1 p.quantity) a =
      a + (l.map (fun p => p.price * jsOr1 p.quantity)).sum := by
  induction l generalizing a with
  | nil => simp
  | cons p rest ih =>
    simp only [List.foldl_cons, List.map_cons, List.sum_cons]
    rw [ih]
    ring

/-- Every item of the batch has a nonzero id taken from some entry. -/
theorem itemsOf_mem (m : SelectionSet) (it : CartItem) (h : it ∈ itemsOf m) :
    it.id ≠ 0 ∧ ∃ p ∈ m.map (fun e => e.2), p.id = some it.id := by
  unfold itemsOf at h
  obtain ⟨p, hp, hit⟩ := List.mem_map.mp h
  obtain ⟨hpm, hpt⟩ := List.mem_filter.mp hp
  cases hid : p.id with
  | none => simp [idTruthy, hid] at hpt
  | some n =>
    simp [idTruthy, hid] at hpt
    subst hit
    simp only [hid, Option.getD_some]
    exact ⟨hpt, p, hpm, hid⟩

/-- A selection object whose entries all have falsy ids yields an empty batch. -/
theorem itemsOf_eq_nil (m : SelectionSet) (h : ∀ e ∈ m, idTruthy e.2.id = false) :
    itemsOf m = [] := by
  unfold itemsOf
  have : (m.map (fun e => e.2)).filter (fun p => idTruthy p.id) = [] := by
    apply List.filter_eq_nil_iff.mpr
    intro p hp
    obtain ⟨e, he, hpe⟩ := List.mem_map.mp hp
    simp [← hpe, h e he]
  simp [this]

/-- Every branch of `renderShaftProduct` deletes the stale shaft entry. -/
theorem jsGet_renderShaftProduct_shaft (data : CatalogData) (st : BuilderState)
    (m : SelectionSet) : jsGet (renderShaftProduct data st m) .shaft = none := by
  unfold renderShaftProduct
  split
  · exact jsGet_delete_self m .shaft
  · split
    · exact jsGet_delete_self m .shaft
    · split
      · exact jsGet_delete_self m .shaft
      · exact jsGet_delete_self m .shaft

/-- One offered chip click preserves the SelectionPath invariants. -/
theorem handleChipClick_preserves_invariant (data : CatalogData) (b : SystemBuilder)
    (e : ChipEvent) (h : pathInvariant data b.state) (hl : legalEventB data b e = true) :
    pathInvariant data (handleChipClick data b e.field e.value).state := by
  obtain ⟨f, v⟩ := e
  cases f with
  | sport =>
    exact ⟨(fun t ht => nomatch ht), (fun z hz => nomatch hz)⟩
  | shaftType =>
    simp only [legalEventB, List.any_eq_true, decide_eq_true_eq] at hl
    obtain ⟨ste, hmem, hdl⟩ := hl
    unfold offeredShaftTypes at hmem
    cases hs : b.state.sport with
    | none =>
      rw [hs] at hmem
      simp at hmem
    | some s =>
      rw [hs] at hmem
      obtain ⟨hmem', hpred⟩ := List.mem_filter.mp hmem
      simp only [List.any_eq_true, decide_eq_true_eq] at hpred
      obtain ⟨h0, h0mem, h0eq⟩ := hpred
      constructor
      · intro t ht
        simp only [handleChipClick] at ht
        refine ⟨s, by simpa [handleChipClick] using hs, ste, hmem', ?_, ?_⟩
        · cases ht
          exact hdl
        · rw [← h0eq]
          exact h0mem
      · intro z hz
        exact nomatch hz
  | shaftSize =>
    simp only [legalEventB, List.any_eq_true, decide_eq_true_eq] at hl
    obtain ⟨sse, hmem, hdl⟩ := hl
    unfold offeredShaftSizes at hmem
    cases hs : b.state.shaftType with
    | none =>
      rw [hs] at hmem
      simp at hmem
    | some t0 =>
      rw [hs] at hmem
      obtain ⟨hmem', hpred⟩ := List.mem_filter.mp hmem
      rw [decide_eq_true_eq] at hpred
      constructor
      · intro t ht
        simp only [handleChipClick] at ht
        exact h.1 t ht
      · intro z hz
        simp only [handleChipClick] at hz
        cases hz
        exact ⟨t0, by simpa [handleChipClick] using hs, sse, hmem', hdl, hpred⟩

/-- Claim C1: whenever a shaft size is chosen (with any value), the transition
clears the shaft slot from the SelectionSet, regardless of any prior shaft
selection and even when the new size offers the same variant id. -/
theorem c1_chooseShaftSize_clears_shaft_slot (data : CatalogData) (b : SystemBuilder)
    (v : String) :
    jsGet (handleChipClick data b .shaftSize v).selectedProducts .shaft = none := by
  simp only [handleChipClick]
  exact jsGet_renderShaftProduct_shaft data _ b.selectedProducts

/-- Claim C2: for every finite sequence of chip events whose values are drawn
from the currently offered candidate lists, the SelectionPath invariants hold
after every step (every prefix of the sequence). -/
theorem c2_selectionPath_invariants_preserved (data : CatalogData) (b : SystemBuilder)
    (es : List ChipEvent) (i : Nat) (h0 : pathInvariant data b.state)
    (hl : allLegalB data b es = true) :
    pathInvariant data (applyEvents data b (es.take i)).state := by
  induction es generalizing b i with
  | nil => simpa [applyEvents] using h0
  | cons e rest ih =>
    cases i with
    | zero => simpa [applyEvents] using h0
    | succ n =>
      simp only [List.take_succ_cons, applyEvents]
      simp only [allLegalB, Bool.and_eq_true] at hl
      exact ih _ n (handleChipClick_preserves_invariant data b e h0 hl.1) hl.2

/-- Claim C3: choosing a sport, from any prior state, resets the shaft type
and shaft size to none, clears the shaft slot, and removes every accessory
slot from the SelectionSet. -/
theorem c3_chooseSport_resets_downstream (data : CatalogData) (b : SystemBuilder) (v : String)
    (t : AccType) (i : Nat) :
    (handleChipClick data b .sport v).state.shaftType = none
    ∧ (handleChipClick data b .sport v).state.shaftSize = none
    ∧ jsGet (handleChipClick data b .sport v).selectedProducts .shaft = none
    ∧ jsGet (handleChipClick data b .sport v).selectedProducts (.acc t i) = none := by
  refine ⟨rfl, rfl, ?_, ?_⟩
  · simp only [handleChipClick]
    rw [jsGet_hideAcc_shaft]
    exact jsGet_delete_self _ .shaft
  · simp only [handleChipClick]
    exact jsGet_hideAcc_acc _ t i

/-- A prior state whose shaft slot holds variant W (id 1, quantity 1). -/
def c4prior : SelectionSet :=
  [(SlotKey.shaft, ⟨some 1, "Shaft W", 10000, "", SlotKey.shaft, 1⟩)]

/-- A shaft card click for a different variant V (id 2). -/
def c4card : CardData :=
  ⟨ProdType.shaft, 0, "2", "Shaft V", 20000, ""⟩

/-- Claim C4 (counterexample): with the shaft slot occupied by a different
variant W, toggling V twice does not return the SelectionSet to its prior
state — the shaft slot ends up empty, not holding W. -/
theorem c4_double_toggle_not_self_inverse :
    handleProductCardClick (handleProductCardClick c4prior c4card) c4card ≠ c4prior
    ∧ jsGet (handleProductCardClick (handleProductCardClick c4prior c4card) c4card) .shaft
        ≠ jsGet c4prior .shaft := by
  decide

/-- Claim C4 (amended): for a shaft toggle whose variant id parses to a
number, toggling twice in a row restores the slot-to-entry mapping of the
SelectionSet provided the shaft slot was previously empty or held exactly the
quantity-1 entry this toggle inserts; a differently-occupied slot instead ends
up empty. -/
theorem c4_amended_shaft_double_toggle (m : SelectionSet) (c : CardData) (k : SlotKey)
    (n : Int) (hty : c.productType = ProdType.shaft)
    (hid : jsParseInt c.variantIdStr = some n)
    (hprev : jsGet m .shaft = none ∨ jsGet m .shaft = some (productOf c)) :
    jsGet (handleProductCardClick (handleProductCardClick m c) c) k = jsGet m k := by
  have hvne : ¬c.variantIdStr = "" := by
    intro hh
    rw [hh] at hid
    exact nomatch hid
  have hpid : (productOf c).id = some n := by
    simp [productOf, hid]
  cases hprev with
  | inl h0 =>
    have step1 : handleProductCardClick m c = m ++ [(.shaft, productOf c)] := by
      unfold handleProductCardClick
      simp only [if_neg hvne, hty, h0]
      exact jsSet_of_absent m .shaft (productOf c) h0
    have hg1 : jsGet (m ++ [(.shaft, productOf c)]) .shaft = some (productOf c) := by
      rw [jsGet_append_of_absent m _ .shaft h0]
      simp [jsGet]
    have step2 : handleProductCardClick (m ++ [(.shaft, productOf c)]) c =
        jsDelete (m ++ [(.shaft, productOf c)]) .shaft := by
      unfold handleProductCardClick
      simp only [if_neg hvne, hty, hg1, hpid, hid, idEq]
      simp
    rw [step1, step2]
    by_cases hk : k = SlotKey.shaft
    · rw [hk, jsGet_delete_self, h0]
    · rw [jsGet_delete_ne _ _ _ hk, jsGet_append_single_ne _ _ _ _ hk]
  | inr h1 =>
    have step1 : handleProductCardClick m c = jsDelete m .shaft := by
      unfold handleProductCardClick
      simp only [if_neg hvne, hty, h1, hpid, hid, idEq]
      simp
    have hg1 : jsGet (jsDelete m .shaft) .shaft = none := jsGet_delete_self m .shaft
    have step2 : handleProductCardClick (jsDelete m .shaft) c =
        jsDelete m .shaft ++ [(.shaft, productOf c)] := by
      unfold handleProductCardClick
      simp only [if_neg hvne, hty, hg1]
      exact jsSet_of_absent _ .shaft (productOf c) hg1
    rw [step1, step2]
    by_cases hk : k = SlotKey.shaft
    · rw [hk, jsGet_append_of_absent _ _ .shaft hg1, h1]
      simp [jsGet]
    · rw [jsGet_append_single_ne _ _ _ _ hk, jsGet_delete_ne _ _ _ hk]

/-- Claim C4 (amended, witness): starting from a set whose shaft slot is
empty, double-toggling shaft variant 42 leaves every binding as before. -/
theorem c4_amended_witness :
    jsGet
      (handleProductCardClick
        (handleProductCardClick [(SlotKey.acc .ball 0, ⟨some 7, "Ball", 500, "", SlotKey.acc .ball 0, 1⟩)]
          ⟨ProdType.shaft, 0, "42", "Shaft V", 100, ""⟩)
        ⟨ProdType.shaft, 0, "42", "Shaft V", 100, ""⟩) (SlotKey.acc .ball 0) =
      jsGet [(SlotKey.acc .ball 0, ⟨some 7, "Ball", 500, "", SlotKey.acc .ball 0, 1⟩)]
        (SlotKey.acc .ball 0) :=
  c4_amended_shaft_double_toggle
    [(SlotKey.acc .ball 0, ⟨some 7, "Ball", 500, "", SlotKey.acc .ball 0, 1⟩)]
    ⟨ProdType.shaft, 0, "42", "Shaft V", 100, ""⟩ (SlotKey.acc .ball 0) 42 rfl (by decide)
    (Or.inl (by decide))

/-- Claim C5: toggling an accessory card (select or deselect) leaves the
binding of every other slot key unchanged — presence, variant and quantity. -/
theorem c5_accessory_toggle_frame (m : SelectionSet) (c : CardData) (k : SlotKey)
    (hty : c.productType ≠ ProdType.shaft)
    (hk : k ≠ slotKeyOf c.productType c.productIndex) :
    jsGet (handleProductCardClick m c) k = jsGet m k := by
  by_cases hv : c.variantIdStr = ""
  · simp [handleProductCardClick, hv]
  · cases hc : c.productType with
    | shaft => exact absurd hc hty
    | ball =>
      rw [hc] at hk
      unfold handleProductCardClick
      simp only [if_neg hv, hc]
      cases hg : jsGet m (slotKeyOf .ball c.productIndex) with
      | some p =>
        simp only [hg]
        exact jsGet_delete_ne _ _ _ hk
      | none =>
        simp only [hg]
        exact jsGet_set_ne _ _ _ _ hk
    | pineapple =>
      rw [hc] at hk
      unfold handleProductCardClick
      simp only [if_neg hv, hc]
      cases hg : jsGet m (slotKeyOf .pineapple c.productIndex) with
      | some p =>
        simp only [hg]
        exact jsGet_delete_ne _ _ _ hk
      | none =>
        simp only [hg]
        exact jsGet_set_ne _ _ _ _ hk

/-- Claim C5 (witness): toggling ball slot 0 leaves ball slot 1's binding
unchanged on a concrete two-entry set. -/
theorem c5_frame_witness :
    jsGet
      (handleProductCardClick
        [(SlotKey.acc .ball 0, ⟨some 7, "Ball A", 500, "", SlotKey.acc .ball 0, 1⟩),
         (SlotKey.acc .ball 1, ⟨some 8, "Ball B", 600, "", SlotKey.acc .ball 1, 2⟩)]
        ⟨ProdType.ball, 0, "7", "Ball A", 500, ""⟩) (SlotKey.acc .ball 1) =
      jsGet
        [(SlotKey.acc .ball 0, ⟨some 7, "Ball A", 500, "", SlotKey.acc .ball 0, 1⟩),
         (SlotKey.acc .ball 1, ⟨some 8, "Ball B", 600, "", SlotKey.acc .ball 1, 2⟩)]
        (SlotKey.acc .ball 1) :=
  c5_accessory_toggle_frame
    [(SlotKey.acc .ball 0, ⟨some 7, "Ball A", 500, "", SlotKey.acc .ball 0, 1⟩),
     (SlotKey.acc .ball 1, ⟨some 8, "Ball B", 600, "", SlotKey.acc .ball 1, 2⟩)]
    ⟨ProdType.ball, 0, "7", "Ball A", 500, ""⟩ (SlotKey.acc .ball 1) (by decide) (by decide)

/-- Claim C6: the summary is a pure function of the SelectionSet — identical
on repeated application; each line's total is unit price times quantity; the
grand total is the sum of unit price times quantity over the lines; the item
count is the number of occupied slots; line order is the set's insertion
order (for sets whose entries carry their own slot key, as every operation
maintains). -/
theorem c6_updateSummary_correct (m : SelectionSet) (hw : ∀ e ∈ m, e.2.slotKey = e.1) :
    updateSummary m = updateSummary m
    ∧ (∀ l ∈ (updateSummary m).lines, l.lineTotal = l.unitPrice * l.quantity)
    ∧ (updateSummary m).grandTotal =
        ((updateSummary m).lines.map (fun l => l.unitPrice * l.quantity)).sum
    ∧ (updateSummary m).itemCount = m.length
    ∧ (updateSummary m).lines.map (fun l => l.slotKey) = m.map (fun e => e.1) := by
  refine ⟨rfl, ?_, ?_, ?_, ?_⟩
  · intro l hl
    simp only [updateSummary] at hl
    obtain ⟨p, hp, hlp⟩ := List.mem_map.mp hl
    rw [← hlp]
    simp [lineOf]
  · simp only [updateSummary]
    rw [foldl_price_qty]
    simp only [List.map_map, zero_add]
    apply congrArg List.sum
    apply List.map_congr_left
    intro e he
    simp [lineOf, Function.comp]
  · simp [updateSummary]
  · simp only [updateSummary, List.map_map]
    apply List.map_congr_left
    intro e he
    simp only [Function.comp]
    simp [lineOf, hw e he]

/-- The two-entry selection used to witness the summary claim. -/
def c6set : SelectionSet :=
  [(SlotKey.shaft, ⟨some 111, "Shaft", 29900, "", SlotKey.shaft, 1⟩),
   (SlotKey.acc .ball 0, ⟨some 222, "Ball", 500, "", SlotKey.acc .ball 0, 2⟩)]

/-- Claim C6 (witness): on a concrete two-entry set the item count is the
number of occupied slots and the line order is the insertion order. -/
theorem c6_summary_witness :
    (updateSummary c6set).itemCount = c6set.length
    ∧ (updateSummary c6set).lines.map (fun l => l.slotKey) = c6set.map (fun e => e.1) :=
  ⟨(c6_updateSummary_correct c6set (by decide)).2.2.2.1,
   (c6_updateSummary_correct c6set (by decide)).2.2.2.2⟩

/-- Claim C7: a quantity change is silently ignored when the slot is absent
or when the target quantity would be below 1; for a present entry and a
target of at least 1, the stored quantity becomes the target and the entry's
summary line total becomes unit price times the new quantity. -/
theorem c7_handleQtyChange_clamped (m : SelectionSet) (k : SlotKey) (delta : Int) :
    (jsGet m k = none → handleQtyChange m k delta = m)
    ∧ (∀ p, jsGet m k = some p → jsOr1 p.quantity + delta < 1 →
        handleQtyChange m k delta = m)
    ∧ (∀ p, jsGet m k = some p → 1 ≤ jsOr1 p.quantity + delta →
        jsGet (handleQtyChange m k delta) k =
          some { p with quantity := jsOr1 p.quantity + delta }
        ∧ lineOf { p with quantity := jsOr1 p.quantity + delta } ∈
            (updateSummary (handleQtyChange m k delta)).lines
        ∧ (lineOf { p with quantity := jsOr1 p.quantity + delta }).lineTotal =
            p.price * (jsOr1 p.quantity + delta)) := by
  refine ⟨?_, ?_, ?_⟩
  · intro h
    unfold handleQtyChange
    rw [h]
  · intro p hp hlt
    unfold handleQtyChange
    rw [hp]
    simp [hlt]
  · intro p hp hge
    have hnot : ¬(jsOr1 p.quantity + delta < 1) := not_lt.mpr hge
    have hres : handleQtyChange m k delta =
        jsSet m k { p with quantity := jsOr1 p.quantity + delta } := by
      unfold handleQtyChange
      rw [hp]
      simp [hnot]
    have hrepl : jsSet m k { p with quantity := jsOr1 p.quantity + delta } =
        replaceKey m k { p with quantity := jsOr1 p.quantity + delta } := by
      unfold jsSet
      rw [hp]
    refine ⟨?_, ?_, ?_⟩
    · rw [hres]
      exact jsGet_set_self m k _
    · rw [hres, hrepl]
      simp only [updateSummary]
      apply List.mem_map.mpr
      refine ⟨{ p with quantity := jsOr1 p.quantity + delta }, ?_, rfl⟩
      apply List.mem_map.mpr
      exact ⟨(k, { p with quantity := jsOr1 p.quantity + delta }),
        mem_replaceKey m k _ p hp, rfl⟩
    · have hne : jsOr1 p.quantity + delta ≠ 0 := by
        intro h0
        rw [h0] at hge
        norm_num at hge
      have hor : jsOr1 (jsOr1 p.quantity + delta) = jsOr1 p.quantity + delta := if_neg hne
      simp only [lineOf]
      rw [hor]

/-- The shaft entry used to witness the quantity claim. -/
def c7prod : SelectedProduct := ⟨some 111, "Shaft", 29900, "", SlotKey.shaft, 1⟩

/-- The one-entry selection used to witness the quantity claim. -/
def c7set : SelectionSet := [(SlotKey.shaft, c7prod)]

/-- Claim C7 (witness): raising the concrete shaft entry's quantity from 1 to
3 stores quantity 3 and its line total becomes unit price times 3. -/
theorem c7_qty_witness :
    jsGet (handleQtyChange c7set SlotKey.shaft 2) SlotKey.shaft =
      some { c7prod with quantity := jsOr1 c7prod.quantity + 2 }
    ∧ lineOf { c7prod with quantity := jsOr1 c7prod.quantity + 2 } ∈
        (updateSummary (handleQtyChange c7set SlotKey.shaft 2)).lines
    ∧ (lineOf { c7prod with quantity := jsOr1 c7prod.quantity + 2 }).lineTotal =
        c7prod.price * (jsOr1 c7prod.quantity + 2) :=
  (c7_handleQtyChange_clamped c7set SlotKey.shaft 2).2.2 c7prod (by decide) (by decide)

/-- Claim C8: a toggle event with no resolvable variant id (blank or missing
hidden input value) leaves the SelectionSet completely unchanged. -/
theorem c8_toggle_missing_variant_noop (m : SelectionSet) (c : CardData)
    (h : c.variantIdStr = "") : handleProductCardClick m c = m := by
  unfold handleProductCardClick
  simp [h]

/-- Claim C8 (witness): a blank-id ball-card click on a concrete one-entry
set is a no-op. -/
theorem c8_noop_witness :
    handleProductCardClick [(SlotKey.shaft, ⟨some 1, "W", 100, "", SlotKey.shaft, 1⟩)]
      ⟨ProdType.ball, 0, "", "X", 500, ""⟩ =
      [(SlotKey.shaft, ⟨some 1, "W", 100, "", SlotKey.shaft, 1⟩)] :=
  c8_toggle_missing_variant_noop [(SlotKey.shaft, ⟨some 1, "W", 100, "", SlotKey.shaft, 1⟩)]
    ⟨ProdType.ball, 0, "", "X", 500, ""⟩ rfl

/-- Claim C9: when the batch is nonempty and the add-items operation rejects
or responds non-ok, the submission reports failure, the builder (path and
SelectionSet) is exactly as before, and an immediate retry builds the same
batch. -/
theorem c9_submit_failure_preserves_state (b : SystemBuilder) (o : AddItemsOutcome) (n : Nat)
    (_hne : b.selectedProducts ≠ [])
    (hitems : itemsOf b.selectedProducts ≠ [])
    (ho : o = AddItemsOutcome.reject ∨ o = AddItemsOutcome.respond false) :
    (handleAddToCart b o n).result = SubmitResult.failed
    ∧ (handleAddToCart b o n).builder = b
    ∧ itemsOf (handleAddToCart b o n).builder.selectedProducts =
        itemsOf b.selectedProducts := by
  have hempty : (itemsOf b.selectedProducts).isEmpty = false := by
    cases h : itemsOf b.selectedProducts with
    | nil => exact absurd h hitems
    | cons a l => rfl
  cases ho with
  | inl h =>
    subst h
    unfold handleAddToCart
    simp [hempty]
  | inr h =>
    subst h
    unfold handleAddToCart
    simp [hempty]

/-- The one-item builder used to witness the failed-submission claim. -/
def c9builder : SystemBuilder :=
  ⟨⟨some "baseball", some "alloy", some "size-31"⟩,
   [(SlotKey.shaft, ⟨some 111, "Shaft", 29900, "", SlotKey.shaft, 1⟩)]⟩

/-- Claim C9 (witness): a rejected add-items call on a concrete one-item
builder reports failure and preserves the builder and its batch. -/
theorem c9_failure_witness :
    (handleAddToCart c9builder .reject 0).result = SubmitResult.failed
    ∧ (handleAddToCart c9builder .reject 0).builder = c9builder
    ∧ itemsOf (handleAddToCart c9builder .reject 0).builder.selectedProducts =
        itemsOf c9builder.selectedProducts :=
  c9_submit_failure_preserves_state c9builder .reject 0 (by decide) (by decide) (Or.inl rfl)

/-- Claim C10: the toggle guard only tests that the variant id string is
nonempty, so a nonempty non-numeric id inserts an entry whose stored id is
`NaN`; such entries are counted by the summary but excluded from the
submission batch (every submitted item has a truthy id taken from an entry),
and a SelectionSet of only falsy-id entries takes the nothing-selected path
with no cart-service call. -/
theorem c10_nan_variant_entries (m : SelectionSet) (st : BuilderState) (c : CardData)
    (o : AddItemsOutcome) (n : Nat) (hv : c.variantIdStr ≠ "")
    (hp : jsParseInt c.variantIdStr = none)
    (hempty : jsGet m (slotKeyOf c.productType c.productIndex) = none) :
    handleProductCardClick m c =
      m ++ [(slotKeyOf c.productType c.productIndex, productOf c)]
    ∧ (productOf c).id = none
    ∧ (updateSummary (handleProductCardClick m c)).itemCount = m.length + 1
    ∧ (∀ it ∈ itemsOf (handleProductCardClick m c),
        it.id ≠ 0 ∧ ∃ p ∈ (handleProductCardClick m c).map (fun e => e.2), p.id = some it.id)
    ∧ ((∀ e ∈ m, idTruthy e.2.id = false) →
        handleAddToCart ⟨st, handleProductCardClick m c⟩ o n =
          ⟨SubmitResult.nothingSelected, ⟨st, handleProductCardClick m c⟩, false⟩) := by
  have hpid : (productOf c).id = none := by
    simp [productOf, hp]
  have happ : handleProductCardClick m c =
      m ++ [(slotKeyOf c.productType c.productIndex, productOf c)] := by
    unfold handleProductCardClick
    simp only [if_neg hv]
    cases hc : c.productType with
    | shaft =>
      rw [hc] at hempty
      simp only [slotKeyOf] at hempty ⊢
      simp only [hempty]
      rw [jsSet_of_absent m .shaft _ hempty]
      simp
    | ball =>
      rw [hc] at hempty
      simp only [hempty]
      rw [jsSet_of_absent m _ _ hempty]
    | pineapple =>
      rw [hc] at hempty
      simp only [hempty]
      rw [jsSet_of_absent m _ _ hempty]
  refine ⟨happ, hpid, ?_, ?_, ?_⟩
  · rw [happ]
    simp [updateSummary]
  · intro it hit
    exact itemsOf_mem _ it hit
  · intro hall
    have hall2 : ∀ e ∈ handleProductCardClick m c, idTruthy e.2.id = false := by
      rw [happ]
      intro e he
      rcases List.mem_append.mp he with hL | hR
      · exact hall e hL
      · simp only [List.mem_singleton] at hR
        rw [hR]
        simp [hpid, idTruthy]
    have hnil : itemsOf (handleProductCardClick m c) = [] :=
      itemsOf_eq_nil _ hall2
    unfold handleAddToCart
    simp [hnil]

/-- The non-numeric-id ball card used to witness the NaN-entry claim. -/
def c10card : CardData := ⟨ProdType.ball, 0, "abc", "Ball", 500, ""⟩

/-- Claim C10 (witness): on the empty set, toggling a ball card whose variant
id is the non-numeric string abc appends a NaN-id entry, and submitting that
set takes the nothing-selected path without contacting the cart. -/
theorem c10_nan_witness :
    handleProductCardClick [] c10card =
      [] ++ [(slotKeyOf c10card.productType c10card.productIndex, productOf c10card)]
    ∧ handleAddToCart ⟨⟨none, none, none⟩, handleProductCardClick [] c10card⟩ .reject 0 =
        ⟨SubmitResult.nothingSelected,
         ⟨⟨none, none, none⟩, handleProductCardClick [] c10card⟩, false⟩ :=
  ⟨(c10_nan_variant_entries [] ⟨none, none, none⟩ c10card .reject 0 (by decide) (by decide)
      rfl).1,
   (c10_nan_variant_entries [] ⟨none, none, none⟩ c10card .reject 0 (by decide) (by decide)
      rfl).2.2.2.2 (by decide)⟩

/-- A small concrete catalog: one sport, one shaft type, one size. -/
def demoData : CatalogData :=
  { sports := [⟨"baseball", "Baseball"⟩, ⟨"softball", "Softball"⟩]
    shaftTypes := [⟨"alloy", "Alloy", ["baseball"]⟩]
    shaftSizes := [⟨"size-31", "31 in", "alloy", [⟨111, "31 in", some "Alloy Shaft", 29900, none⟩]⟩] }

/-- A freshly constructed builder: no choices, nothing selected. -/
def initBuilder : SystemBuilder :=
  ⟨⟨none, none, none⟩, []⟩

/-- Claim C2 (witness): after the offered sequence sport, shaft type, shaft
size on the concrete catalog, the SelectionPath invariants hold. -/
theorem c2_invariants_witness :
    pathInvariant demoData
      (applyEvents demoData initBuilder
        ([⟨.sport, "baseball"⟩, ⟨.shaftType, "alloy"⟩, ⟨.shaftSize, "size-31"⟩].take 3)).state :=
  c2_selectionPath_invariants_preserved demoData initBuilder
    [⟨.sport, "baseball"⟩, ⟨.shaftType, "alloy"⟩, ⟨.shaftSize, "size-31"⟩] 3
    ⟨(fun t ht => nomatch ht), (fun z hz => nomatch hz)⟩ (by decide)
